import Mathlib

/-!
Verification of the calculation core of the `kelly` betting calculator
(odds parsing, input validation, and the three allocation strategies).

The Go source computes with `float64`; this development embeds the same
formulas over `ℚ` (exact rational arithmetic), making every rounding step
explicit.  Go's `math.Round` (round half away from zero) is modelled by
`Kelly.goRound`, and `round(val, decimals)` by `Kelly.round`.  Division by
zero yields `0` in `ℚ` where Go would produce `±Inf`/`NaN`; every theorem
that depends on a division guards its denominator away from zero, so no
statement below rests on that difference.
-/

namespace Kelly

/-- Round half away from zero to an integer, as Go's `math.Round`.
For nonnegative `x` this is `⌊x + 1/2⌋`; negative values mirror. -/
def goRound (x : ℚ) : ℤ :=
  if 0 ≤ x then ⌊x + 1/2⌋ else -⌊-x + 1/2⌋

/-- The Go helper `round(val, decimals)` from the calculator package:
`math.Round(val*10^d) / 10^d`. -/
def round (val : ℚ) (decimals : ℕ) : ℚ :=
  (goRound (val * 10 ^ decimals) : ℚ) / 10 ^ decimals

/-- Go `impliedProbability`: `1/odds`, with a guard clamping nonpositive
odds to `0`. -/
def impliedProbability (odds : ℚ) : ℚ :=
  if odds ≤ 0 then 0 else 1 / odds

/-- Go `marketEfficiency`: sum of the two implied probabilities. -/
def marketEfficiency (oddsA oddsB : ℚ) : ℚ :=
  impliedProbability oddsA + impliedProbability oddsB

/-- The `types.CalculationInput` struct.  `method` is the Go string-typed
`CalculationMethod`; Go zero values are the field defaults. -/
structure CalculationInput where
  method : String := ""
  oddsA : ℚ := 0
  oddsB : ℚ := 0
  probA : ℚ := 0
  probB : ℚ := 0
  totalStake : ℚ := 0
  nameA : String := ""
  nameB : String := ""
  currency : String := ""
deriving Repr, DecidableEq, Inhabited

/-- The `types.Option` struct (one side of the bet); named `BetOption`
here because `Option` is taken by Lean. -/
structure BetOption where
  name : String := ""
  odds : ℚ := 0
  impliedProbability : ℚ := 0
  probability : ℚ := 0
  stake : ℚ := 0
  returnIfWins : ℚ := 0
  profitIfWins : ℚ := 0
  roi : ℚ := 0
deriving Repr, DecidableEq, Inhabited

/-- The `types.Summary` struct. -/
structure Summary where
  guaranteedProfit : Bool := false
  minProfit : ℚ := 0
  maxProfit : ℚ := 0
  expectedValue : ℚ := 0
  minROI : ℚ := 0
  maxROI : ℚ := 0
  marketEfficiency : ℚ := 0
deriving Repr, DecidableEq, Inhabited

/-- The `types.CalculationResult` struct. -/
structure CalculationResult where
  method : String := ""
  totalStake : ℚ := 0
  currency : String := ""
  optionA : BetOption := {}
  optionB : BetOption := {}
  summary : Summary := {}
deriving Repr, DecidableEq, Inhabited

/-- Go `(*ArbitrageCalculator).Calculate`.  The Go function's error return
is always `nil`; the `Except` error branch is therefore never used. -/
def ArbitrageCalculator.Calculate (input : CalculationInput) :
    Except String CalculationResult :=
  let denominator := input.oddsA + input.oddsB - 2
  let stakeA := round (input.totalStake * (input.oddsB - 1) / denominator) 2
  let stakeB := round (input.totalStake * (input.oddsA - 1) / denominator) 2
  let returnA := stakeA * input.oddsA
  let returnB := stakeB * input.oddsB
  let profitA := returnA - input.totalStake
  let profitB := returnB - input.totalStake
  let marketEff := marketEfficiency input.oddsA input.oddsB
  Except.ok
    { method := "arbitrage"
      totalStake := input.totalStake
      currency := input.currency
      optionA :=
        { name := input.nameA
          odds := input.oddsA
          impliedProbability := impliedProbability input.oddsA
          stake := stakeA
          returnIfWins := round returnA 2
          profitIfWins := round profitA 2
          roi := round (profitA / input.totalStake) 4 }
      optionB :=
        { name := input.nameB
          odds := input.oddsB
          impliedProbability := impliedProbability input.oddsB
          stake := stakeB
          returnIfWins := round returnB 2
          profitIfWins := round profitB 2
          roi := round (profitB / input.totalStake) 4 }
      summary :=
        { guaranteedProfit := decide (marketEff < 1)
          minProfit := round (min profitA profitB) 2
          maxProfit := round (max profitA profitB) 2
          expectedValue := round ((profitA + profitB) / 2) 2
          minROI := round (min profitA profitB / input.totalStake) 4
          maxROI := round (max profitA profitB / input.totalStake) 4
          marketEfficiency := round marketEff 4 } }

/-- Go `(*KellyCalculator).Calculate`.  Errors out when either probability
estimate is absent (zero); otherwise allocates the clamped Kelly fractions,
scaled down proportionally when the raw stakes exceed the bankroll. -/
def KellyCalculator.Calculate (input : CalculationInput) :
    Except String CalculationResult :=
  if input.probA = 0 ∨ input.probB = 0 then
    Except.error "kelly method requires probability estimates for both options"
  else
    let kellyA := max 0 ((input.probA * input.oddsA - 1) / (input.oddsA - 1))
    let kellyB := max 0 ((input.probB * input.oddsB - 1) / (input.oddsB - 1))
    let rawStakeA := input.totalStake * kellyA
    let rawStakeB := input.totalStake * kellyB
    let totalRaw := rawStakeA + rawStakeB
    let stakeA :=
      if input.totalStake < totalRaw then
        round (rawStakeA * (input.totalStake / totalRaw)) 2
      else round rawStakeA 2
    let stakeB :=
      if input.totalStake < totalRaw then
        round (rawStakeB * (input.totalStake / totalRaw)) 2
      else round rawStakeB 2
    let returnA := stakeA * input.oddsA
    let returnB := stakeB * input.oddsB
    let profitA := returnA - input.totalStake
    let profitB := returnB - input.totalStake
    let probSum := input.probA + input.probB
    let expectedValue :=
      if probSum < 1 then
        input.probA * profitA + input.probB * profitB +
          (1 - probSum) * (-input.totalStake)
      else input.probA * profitA + input.probB * profitB
    let marketEff := marketEfficiency input.oddsA input.oddsB
    Except.ok
      { method := "kelly"
        totalStake := input.totalStake
        currency := input.currency
        optionA :=
          { name := input.nameA
            odds := input.oddsA
            impliedProbability := impliedProbability input.oddsA
            probability := input.probA
            stake := stakeA
            returnIfWins := round returnA 2
            profitIfWins := round profitA 2
            roi := round (profitA / input.totalStake) 4 }
        optionB :=
          { name := input.nameB
            odds := input.oddsB
            impliedProbability := impliedProbability input.oddsB
            probability := input.probB
            stake := stakeB
            returnIfWins := round returnB 2
            profitIfWins := round profitB 2
            roi := round (profitB / input.totalStake) 4 }
        summary :=
          { guaranteedProfit := decide (marketEff < 1)
            minProfit := round (min profitA profitB) 2
            maxProfit := round (max profitA profitB) 2
            expectedValue := round expectedValue 2
            minROI := round (min profitA profitB / input.totalStake) 4
            maxROI := round (max profitA profitB / input.totalStake) 4
            marketEfficiency := round marketEff 4 } }

/-- Go `(*ProportionalCalculator).Calculate`.  As for arbitrage, the Go
error return is always `nil`. -/
def ProportionalCalculator.Calculate (input : CalculationInput) :
    Except String CalculationResult :=
  let weightA := 1 / input.oddsA
  let weightB := 1 / input.oddsB
  let totalWeight := weightA + weightB
  let stakeA := round (input.totalStake * (weightA / totalWeight)) 2
  let stakeB := round (input.totalStake * (weightB / totalWeight)) 2
  let returnA := stakeA * input.oddsA
  let returnB := stakeB * input.oddsB
  let profitA := returnA - input.totalStake
  let profitB := returnB - input.totalStake
  let marketEff := marketEfficiency input.oddsA input.oddsB
  Except.ok
    { method := "proportional"
      totalStake := input.totalStake
      currency := input.currency
      optionA :=
        { name := input.nameA
          odds := input.oddsA
          impliedProbability := impliedProbability input.oddsA
          stake := stakeA
          returnIfWins := round returnA 2
          profitIfWins := round profitA 2
          roi := round (profitA / input.totalStake) 4 }
      optionB :=
        { name := input.nameB
          odds := input.oddsB
          impliedProbability := impliedProbability input.oddsB
          stake := stakeB
          returnIfWins := round returnB 2
          profitIfWins := round profitB 2
          roi := round (profitB / input.totalStake) 4 }
      summary :=
        { guaranteedProfit := decide (marketEff < 1)
          minProfit := round (min profitA profitB) 2
          maxProfit := round (max profitA profitB) 2
          expectedValue := round ((profitA + profitB) / 2) 2
          minROI := round (min profitA profitB / input.totalStake) 4
          maxROI := round (max profitA profitB / input.totalStake) 4
          marketEfficiency := round marketEff 4 } }

/-- Go `NewCalculator`: dispatch on the strategy string; `"kelly"` and
`"proportional"` select their calculators, everything else falls back to
arbitrage.  Modelled as returning the selected `Calculate` function. -/
def NewCalculator (method : String) :
    CalculationInput → Except String CalculationResult :=
  if method = "kelly" then KellyCalculator.Calculate
  else if method = "proportional" then ProportionalCalculator.Calculate
  else ArbitrageCalculator.Calculate

/-- Extract the result of a `Calculate` call that succeeded (Go callers
dereference the non-nil result pointer). -/
def resultOf (e : Except String CalculationResult) : CalculationResult :=
  match e with
  | Except.ok r => r
  | Except.error _ => default

/-- Whitespace characters trimmed by Go `strings.TrimSpace` (restricted to
the ASCII white space actually relevant to odds input). -/
def isSpaceChar (c : Char) : Bool :=
  c = ' ' ∨ c = '\t' ∨ c = '\n' ∨ c = '\r'

/-- Go `strings.TrimSpace` over the char-list model of a Go string. -/
def trimSpace (l : List Char) : List Char :=
  ((l.dropWhile isSpaceChar).reverse.dropWhile isSpaceChar).reverse

/-- Leading run of decimal digits: their values and the rest of the list. -/
def takeDigits : List Char → List ℕ × List Char
  | [] => ([], [])
  | c :: rest =>
    if c.isDigit then
      let p := takeDigits rest
      ((c.toNat - 48) :: p.1, p.2)
    else ([], c :: rest)

/-- Value of a digit string read most-significant first. -/
def digitsVal (ds : List ℕ) : ℕ :=
  ds.foldl (fun acc d => 10 * acc + d) 0

/-- Exponent suffix of a float literal: given the signed mantissa, consume
an optional `e`/`E` part and return the value, or `none` on bad syntax. -/
def parseExpPart (mant : ℚ) : List Char → Option ℚ
  | [] => some mant
  | e :: r =>
    if e = 'e' ∨ e = 'E' then
      let sr : ℤ × List Char :=
        match r with
        | '+' :: rr => (1, rr)
        | '-' :: rr => (-1, rr)
        | rr => (1, rr)
      let p := takeDigits sr.2
      if p.1.isEmpty ∨ ¬p.2.isEmpty then none
      else some (mant * (10 : ℚ) ^ (sr.1 * (digitsVal p.1 : ℤ)))
    else none

/-- Model of Go `strconv.ParseFloat` on plain decimal syntax, producing the
exact rational value of the literal (`float64` rounding is immaterial at
the tolerances the spec states). -/
def parseFloatQ (l : List Char) : Option ℚ :=
  let sl : ℚ × List Char :=
    match l with
    | '+' :: r => (1, r)
    | '-' :: r => (-1, r)
    | r => (1, r)
  let ip := takeDigits sl.2
  match ip.2 with
  | '.' :: r =>
    let fp := takeDigits r
    if ip.1.isEmpty ∧ fp.1.isEmpty then none
    else
      parseExpPart
        (sl.1 * ((digitsVal ip.1 : ℚ) + (digitsVal fp.1 : ℚ) / 10 ^ fp.1.length))
        fp.2
  | r => if ip.1.isEmpty then none else parseExpPart (sl.1 * (digitsVal ip.1 : ℚ)) r

/-- Go `strings.Split(l, "/")`. -/
def splitOnSlash : List Char → List (List Char)
  | [] => [[]]
  | c :: r =>
    if c = '/' then [] :: splitOnSlash r
    else
      match splitOnSlash r with
      | [] => [[c]]
      | h :: t => (c :: h) :: t

/-- Go `strings.HasSuffix(l, "%")`. -/
def endsWithPercent (l : List Char) : Bool :=
  l.getLast? = some '%'

/-- Go `strings.HasPrefix(l, "+") || strings.HasPrefix(l, "-")`. -/
def startsWithSign (l : List Char) : Bool :=
  match l with
  | '+' :: _ => true
  | '-' :: _ => true
  | _ => false

/-- Go `strings.TrimSuffix(l, "%")`. -/
def trimSuffixPercent (l : List Char) : List Char :=
  if endsWithPercent l then l.dropLast else l

/-- Go `parseDecimal`: bare decimal odds, rejected below `1.0`. -/
def parseDecimal (l : List Char) : Except String ℚ :=
  match parseFloatQ l with
  | none => Except.error "invalid decimal odds"
  | some odds =>
    if odds < 1 then Except.error "decimal odds must be >= 1.0"
    else Except.ok odds

/-- Go `parsePercentage`: strip `%`, parse, require `(0, 100]`, convert via
`100/percentage`. -/
def parsePercentage (l : List Char) : Except String ℚ :=
  let ps := trimSpace (trimSuffixPercent l)
  match parseFloatQ ps with
  | none => Except.error "invalid percentage odds"
  | some percentage =>
    if percentage ≤ 0 then Except.error "percentage must be > 0"
    else if 100 < percentage then Except.error "percentage must be <= 100"
    else Except.ok (100 / percentage)

/-- Go `parseFractional`: split on `/`, parse both parts, reject zero
denominator and negative components, convert via `n/d + 1`. -/
def parseFractional (l : List Char) : Except String ℚ :=
  match splitOnSlash l with
  | [p1, p2] =>
    match parseFloatQ (trimSpace p1) with
    | none => Except.error "invalid numerator"
    | some numerator =>
      match parseFloatQ (trimSpace p2) with
      | none => Except.error "invalid denominator"
      | some denominator =>
        if denominator = 0 then Except.error "denominator cannot be zero"
        else if numerator < 0 ∨ denominator < 0 then
          Except.error "fractional odds must be positive"
        else Except.ok (numerator / denominator + 1)
  | _ => Except.error "invalid fractional odds"

/-- Go `parseAmerican`: signed float, zero invalid, positive `a` gives
`a/100 + 1`, negative gives `100/|a| + 1`. -/
def parseAmerican (l : List Char) : Except String ℚ :=
  match parseFloatQ l with
  | none => Except.error "invalid American odds"
  | some american =>
    if american = 0 then Except.error "American odds cannot be zero"
    else if 0 < american then Except.ok (american / 100 + 1)
    else Except.ok (100 / |american| + 1)

/-- Go `ParseOdds`: trim, reject empty, then dispatch by shape in
precedence order (`%` suffix, `/` anywhere, leading sign, bare decimal). -/
def ParseOdds (l : List Char) : Except String ℚ :=
  let t := trimSpace l
  if t.isEmpty then Except.error "odds cannot be empty"
  else if endsWithPercent t then parsePercentage t
  else if t.contains '/' then parseFractional t
  else if startsWithSign t then parseAmerican t
  else parseDecimal t

/-- The `validator.ValidationError` struct: a composite holding the
accumulated error messages (Go stores `[]error`; messages carry the
structure relevant here, with the numeric `%.2f`-style payloads elided). -/
structure ValidationError where
  Errors : List String
deriving Repr, DecidableEq, Inhabited

/-- Go `(ValidationError).Error()`: empty for no errors, the sole message
for one, and a numbered multi-line listing for several. -/
def ValidationError.Error (e : ValidationError) : String :=
  match e.Errors with
  | [] => ""
  | [m] => m
  | ms =>
    "multiple validation errors:\n" ++
      String.join (ms.enum.map fun p => "  " ++ toString (p.1 + 1) ++ ". " ++ p.2 ++ "\n")

/-- Go `ValidateOdds`: odds below the practical floor `1.01` fail. -/
def ValidateOdds (odds : ℚ) : Option String :=
  if odds < 1.01 then some "odds must be >= 1.01" else none

/-- Go `ValidateProbability`: probability must lie strictly inside (0,1). -/
def ValidateProbability (prob : ℚ) : Option String :=
  if prob ≤ 0 ∨ 1 ≤ prob then
    some "probability must be between 0 and 1 (exclusive)"
  else none

/-- Go `ValidateTotalStake`: stake must be positive. -/
def ValidateTotalStake (total : ℚ) : Option String :=
  if total ≤ 0 then some "total stake must be positive" else none

/-- Go `ValidateCalculationInput`, accumulation part: the straight-line
collection of every check's failure message, in source order (each
`errs = append(errs, ...)` of the Go code appends one segment). -/
def collectErrs (input : CalculationInput) : List String :=
  (match ValidateOdds input.oddsA with
    | some m => ["Option A: " ++ m]
    | none => []) ++
  (match ValidateOdds input.oddsB with
    | some m => ["Option B: " ++ m]
    | none => []) ++
  (match ValidateTotalStake input.totalStake with
    | some m => [m]
    | none => []) ++
  (if input.method = "kelly" then
    (if input.probA = 0 ∨ input.probB = 0 then
      ["Kelly method requires probability estimates for both options (use --prob-a and --prob-b)"]
    else []) ++
    (if input.probA ≠ 0 then
      match ValidateProbability input.probA with
      | some m => ["Option A probability: " ++ m]
      | none => []
    else []) ++
    (if input.probB ≠ 0 then
      match ValidateProbability input.probB with
      | some m => ["Option B probability: " ++ m]
      | none => []
    else []) ++
    (if 0 < input.probA ∧ 0 < input.probB ∧ 1 < input.probA + input.probB then
      ["warning: probabilities sum to > 1.0"]
    else [])
  else if input.method = "arbitrage" ∨ input.method = "proportional" then []
  else ["invalid calculation method: " ++ input.method]) ++
  (if 0 < input.oddsA ∧ 0 < input.oddsB then
    if input.method = "arbitrage" ∧ 1 ≤ 1 / input.oddsA + 1 / input.oddsB then
      ["warning: combined implied probability >= 100% - no guaranteed profit"]
    else []
  else [])

/-- Go `ValidateCalculationInput`: wraps the accumulated failures into a
composite `ValidationError` when any check fails, `none` (Go `nil`)
otherwise. -/
def ValidateCalculationInput (input : CalculationInput) : Option ValidationError :=
  let errs := collectErrs input
  if errs = [] then none else some ⟨errs⟩

/-- Modelled from the spec: the independent checks of the validator, each
an applicability/failure condition paired with its message, in the
documented order.  This is the claim-side description that
`ValidateCalculationInput` is compared against. -/
def applicableFailedChecks (input : CalculationInput) : List String :=
  (if input.oddsA < 1.01 then ["Option A: odds must be >= 1.01"] else []) ++
  (if input.oddsB < 1.01 then ["Option B: odds must be >= 1.01"] else []) ++
  (if input.totalStake ≤ 0 then ["total stake must be positive"] else []) ++
  (if input.method = "kelly" ∧ (input.probA = 0 ∨ input.probB = 0) then
    ["Kelly method requires probability estimates for both options (use --prob-a and --prob-b)"]
  else []) ++
  (if input.method = "kelly" ∧ input.probA ≠ 0 ∧ (input.probA ≤ 0 ∨ 1 ≤ input.probA) then
    ["Option A probability: probability must be between 0 and 1 (exclusive)"]
  else []) ++
  (if input.method = "kelly" ∧ input.probB ≠ 0 ∧ (input.probB ≤ 0 ∨ 1 ≤ input.probB) then
    ["Option B probability: probability must be between 0 and 1 (exclusive)"]
  else []) ++
  (if input.method = "kelly" ∧ 0 < input.probA ∧ 0 < input.probB ∧
      1 < input.probA + input.probB then
    ["warning: probabilities sum to > 1.0"]
  else []) ++
  (if input.method ≠ "kelly" ∧ input.method ≠ "arbitrage" ∧
      input.method ≠ "proportional" then
    ["invalid calculation method: " ++ input.method]
  else []) ++
  (if 0 < input.oddsA ∧ 0 < input.oddsB ∧ input.method = "arbitrage" ∧
      1 ≤ 1 / input.oddsA + 1 / input.oddsB then
    ["warning: combined implied probability >= 100% - no guaranteed profit"]
  else [])

/-- Modelled from the spec: the composite message must list all
accumulated failures, numbered. -/
def numberedListing (ms : List String) : String :=
  "multiple validation errors:\n" ++
    String.join (ms.enum.map fun p => "  " ++ toString (p.1 + 1) ++ ". " ++ p.2 ++ "\n")

/-- Rounding discipline of an output record: every monetary field is
stable under 2-decimal rounding and every ROI-class field (plus market
efficiency) under 4-decimal rounding. -/
def allRounded (r : CalculationResult) : Prop :=
  round r.optionA.stake 2 = r.optionA.stake ∧
  round r.optionA.returnIfWins 2 = r.optionA.returnIfWins ∧
  round r.optionA.profitIfWins 2 = r.optionA.profitIfWins ∧
  round r.optionA.roi 4 = r.optionA.roi ∧
  round r.optionB.stake 2 = r.optionB.stake ∧
  round r.optionB.returnIfWins 2 = r.optionB.returnIfWins ∧
  round r.optionB.profitIfWins 2 = r.optionB.profitIfWins ∧
  round r.optionB.roi 4 = r.optionB.roi ∧
  round r.summary.minProfit 2 = r.summary.minProfit ∧
  round r.summary.maxProfit 2 = r.summary.maxProfit ∧
  round r.summary.expectedValue 2 = r.summary.expectedValue ∧
  round r.summary.minROI 4 = r.summary.minROI ∧
  round r.summary.maxROI 4 = r.summary.maxROI ∧
  round r.summary.marketEfficiency 4 = r.summary.marketEfficiency

/-- The returns and profits of a result are recomputed from its already
rounded stakes: `ReturnIfWins = round(stake*odds, 2)` where `stake` is the
rounded output stake, and similarly for `ProfitIfWins`. -/
def derivedFromRoundedStake (r : CalculationResult)
    (input : CalculationInput) : Prop :=
  r.optionA.returnIfWins = round (r.optionA.stake * input.oddsA) 2 ∧
  r.optionA.profitIfWins =
    round (r.optionA.stake * input.oddsA - input.totalStake) 2 ∧
  r.optionB.returnIfWins = round (r.optionB.stake * input.oddsB) 2 ∧
  r.optionB.profitIfWins =
    round (r.optionB.stake * input.oddsB - input.totalStake) 2

/-! ### Shared lemmas about the rounding helper -/

theorem goRound_nonneg (x : ℚ) (hx : 0 ≤ x) : 0 ≤ goRound x := by
  unfold goRound
  rw [if_pos hx]
  exact Int.le_floor.mpr (by push_cast; linarith)

theorem abs_goRound_sub_le (x : ℚ) : |(goRound x : ℚ) - x| ≤ 1 / 2 := by
  unfold goRound
  split
  · rw [abs_le]
    constructor
    · have := Int.lt_floor_add_one (x + 1 / 2)
      push_cast at this ⊢
      linarith
    · have := Int.floor_le (x + 1 / 2)
      linarith
  · rw [abs_le]
    constructor
    · have := Int.floor_le (-x + 1 / 2)
      push_cast
      linarith
    · have := Int.lt_floor_add_one (-x + 1 / 2)
      push_cast
      linarith

theorem goRound_mono {x y : ℚ} (h : x ≤ y) : goRound x ≤ goRound y := by
  unfold goRound
  split <;> split
  · exact Int.floor_le_floor (by linarith)
  · rename_i hx hy
    exact absurd (le_trans hx h) hy
  · rename_i hx hy
    have h1 : (0 : ℤ) ≤ ⌊-x + 1 / 2⌋ := Int.le_floor.mpr (by push_cast; linarith)
    have h2 : (0 : ℤ) ≤ ⌊y + 1 / 2⌋ := Int.le_floor.mpr (by push_cast; linarith)
    omega
  · rename_i hx hy
    have : ⌊-y + 1 / 2⌋ ≤ ⌊-x + 1 / 2⌋ := Int.floor_le_floor (by linarith)
    omega

theorem goRound_intCast (n : ℤ) : goRound (n : ℚ) = n := by
  unfold goRound
  split
  · rw [Int.floor_int_add]
    norm_num
  · rename_i h
    have : -(n : ℚ) + 1 / 2 = ((-n : ℤ) : ℚ) + 1 / 2 := by push_cast; ring
    rw [this, Int.floor_int_add]
    norm_num

theorem goRound_neg (x : ℚ) : goRound (-x) = -goRound x := by
  unfold goRound
  by_cases hx : 0 ≤ x
  · by_cases hx0 : x = 0
    · subst hx0
      norm_num
    · have h1 : ¬0 ≤ -x := by
        have : 0 < x := lt_of_le_of_ne hx (Ne.symm hx0)
        linarith
      rw [if_pos hx, if_neg h1, neg_neg]
  · have h1 : 0 ≤ -x := by linarith
    rw [if_neg hx, if_pos h1, neg_neg]

theorem abs_round_sub_le (x : ℚ) (d : ℕ) : |round x d - x| ≤ 1 / (2 * 10 ^ d) := by
  have h10 : (0 : ℚ) < 10 ^ d := by positivity
  have h := abs_goRound_sub_le (x * 10 ^ d)
  have heq : round x d - x = ((goRound (x * 10 ^ d) : ℚ) - x * 10 ^ d) / 10 ^ d := by
    unfold round
    field_simp
    ring
  rw [heq, abs_div, abs_of_pos h10, div_le_div_iff h10 (by positivity)]
  nlinarith [abs_nonneg ((goRound (x * 10 ^ d) : ℚ) - x * 10 ^ d)]

theorem round_le (x : ℚ) (d : ℕ) : round x d ≤ x + 1 / (2 * 10 ^ d) := by
  have := abs_round_sub_le x d
  rw [abs_le] at this
  linarith [this.2]

theorem le_round (x : ℚ) (d : ℕ) : x - 1 / (2 * 10 ^ d) ≤ round x d := by
  have := abs_round_sub_le x d
  rw [abs_le] at this
  linarith [this.1]

theorem round_nonneg (x : ℚ) (d : ℕ) (hx : 0 ≤ x) : 0 ≤ round x d := by
  unfold round
  have h1 : (0 : ℤ) ≤ goRound (x * 10 ^ d) := goRound_nonneg _ (by positivity)
  have h2 : (0 : ℚ) ≤ (goRound (x * 10 ^ d) : ℚ) := by exact_mod_cast h1
  positivity

theorem round_mono {x y : ℚ} (d : ℕ) (h : x ≤ y) : round x d ≤ round y d := by
  unfold round
  have h10 : (0 : ℚ) < 10 ^ d := by positivity
  have h1 : goRound (x * 10 ^ d) ≤ goRound (y * 10 ^ d) :=
    goRound_mono (by nlinarith)
  have h2 : (goRound (x * 10 ^ d) : ℚ) ≤ (goRound (y * 10 ^ d) : ℚ) := by
    exact_mod_cast h1
  exact (div_le_div_right h10).mpr h2

theorem round_int_div (n : ℤ) (d : ℕ) : round ((n : ℚ) / 10 ^ d) d = (n : ℚ) / 10 ^ d := by
  unfold round
  have h10 : (10 : ℚ) ^ d ≠ 0 := by positivity
  have heq : (n : ℚ) / 10 ^ d * 10 ^ d = (n : ℚ) := by field_simp
  rw [heq, goRound_intCast]

theorem round_idem (x : ℚ) (d : ℕ) : round (round x d) d = round x d := by
  have : round x d = ((goRound (x * 10 ^ d) : ℚ)) / 10 ^ d := rfl
  rw [this, round_int_div]

theorem round_neg (x : ℚ) (d : ℕ) : round (-x) d = -round x d := by
  unfold round
  rw [neg_mul, goRound_neg]
  push_cast
  ring

theorem round_eq_of_nonneg (x : ℚ) (d : ℕ) (hx : 0 ≤ x) :
    round x d = (⌊x * 10 ^ d + 1 / 2⌋ : ℚ) / 10 ^ d := by
  unfold round goRound
  rw [if_pos (by positivity)]

/-! ### Small helper lemmas about the calculators -/

theorem marketEfficiency_eq (a b : ℚ) (ha : 0 < a) (hb : 0 < b) :
    marketEfficiency a b = 1 / a + 1 / b := by
  unfold marketEfficiency impliedProbability
  rw [if_neg (by linarith), if_neg (by linarith)]

theorem kelly_error_of_missing_probs (input : CalculationInput)
    (h : input.probA = 0 ∨ input.probB = 0) :
    KellyCalculator.Calculate input =
      Except.error "kelly method requires probability estimates for both options" := by
  unfold KellyCalculator.Calculate
  rw [if_pos h]

/-! ### Claim theorems -/

/-- C7: for every input in which `ProbA == 0` or `ProbB == 0`, the Kelly
calculator returns an error and no result; the caller receives no partial
`CalculationResult`. -/
theorem C7_kelly_rejects_missing_probabilities (input : CalculationInput)
    (h : input.probA = 0 ∨ input.probB = 0) :
    KellyCalculator.Calculate input =
      Except.error "kelly method requires probability estimates for both options" :=
  kelly_error_of_missing_probs input h

/-- Witness for C7: Kelly with `probA = 0` and `probB = 0` errors out. -/
theorem C7_kelly_rejects_missing_probabilities_witness :
    (({ method := "kelly", oddsA := 2, oddsB := 2, totalStake := 1000 } :
        CalculationInput).probA = 0 ∨
      ({ method := "kelly", oddsA := 2, oddsB := 2, totalStake := 1000 } :
        CalculationInput).probB = 0) ∧
    KellyCalculator.Calculate
        { method := "kelly", oddsA := 2, oddsB := 2, totalStake := 1000 } =
      Except.error "kelly method requires probability estimates for both options" :=
  ⟨Or.inl rfl,
    C7_kelly_rejects_missing_probabilities
      { method := "kelly", oddsA := 2, oddsB := 2, totalStake := 1000 } (Or.inl rfl)⟩

/-- C8: every strategy identifier other than `"kelly"` and
`"proportional"` resolves to the arbitrage calculator, whose `Calculate`
succeeds and labels its result with method `"arbitrage"`. -/
theorem C8_unknown_method_defaults_to_arbitrage (m : String)
    (input : CalculationInput) (hk : m ≠ "kelly") (hp : m ≠ "proportional") :
    NewCalculator m input = ArbitrageCalculator.Calculate input ∧
    (NewCalculator m input).isOk = true ∧
    (resultOf (NewCalculator m input)).method = "arbitrage" := by
  unfold NewCalculator
  rw [if_neg hk, if_neg hp]
  refine ⟨rfl, rfl, rfl⟩

/-- Witness for C8 at the unrecognized strategy string `"unknown"`. -/
theorem C8_unknown_method_defaults_to_arbitrage_witness :
    ("unknown" ≠ "kelly") ∧ ("unknown" ≠ "proportional") ∧
    (NewCalculator "unknown" { oddsA := 2, oddsB := 2, totalStake := 100 } =
        ArbitrageCalculator.Calculate { oddsA := 2, oddsB := 2, totalStake := 100 } ∧
      (NewCalculator "unknown" { oddsA := 2, oddsB := 2, totalStake := 100 }).isOk = true ∧
      (resultOf (NewCalculator "unknown"
          { oddsA := 2, oddsB := 2, totalStake := 100 })).method = "arbitrage") :=
  ⟨by simp, by simp,
    C8_unknown_method_defaults_to_arbitrage "unknown"
      { oddsA := 2, oddsB := 2, totalStake := 100 } (by simp) (by simp)⟩

/-- C10: the arbitrage and proportional calculators succeed on every input
whatsoever (their error branch is never taken), and the Kelly calculator
succeeds exactly when both probabilities are nonzero — it is the only one
that can fail. -/
theorem C10_only_kelly_can_fail (input : CalculationInput) :
    (ArbitrageCalculator.Calculate input).isOk = true ∧
    (ProportionalCalculator.Calculate input).isOk = true ∧
    ((KellyCalculator.Calculate input).isOk = true ↔
      ¬(input.probA = 0 ∨ input.probB = 0)) := by
  refine ⟨rfl, rfl, ?_⟩
  by_cases h : input.probA = 0 ∨ input.probB = 0
  · rw [kelly_error_of_missing_probs input h]
    simp [Except.isOk, Except.toBool, h]
  · unfold KellyCalculator.Calculate
    rw [if_neg h]
    simp [Except.isOk, Except.toBool, h]

/-- C2: for valid odds (both at least `1.01`), each of the three
calculators sets the `GuaranteedProfit` flag exactly when
`1/oddsA + 1/oddsB < 1`; the flag depends only on the odds, never on the
strategy. -/
theorem C2_guaranteed_profit_iff_market_inefficient (input : CalculationInput)
    (ha : 1.01 ≤ input.oddsA) (hb : 1.01 ≤ input.oddsB) :
    ((resultOf (ArbitrageCalculator.Calculate input)).summary.guaranteedProfit = true ↔
      1 / input.oddsA + 1 / input.oddsB < 1) ∧
    ((resultOf (ProportionalCalculator.Calculate input)).summary.guaranteedProfit = true ↔
      1 / input.oddsA + 1 / input.oddsB < 1) ∧
    (∀ r, KellyCalculator.Calculate input = Except.ok r →
      (r.summary.guaranteedProfit = true ↔ 1 / input.oddsA + 1 / input.oddsB < 1)) := by
  have ha0 : 0 < input.oddsA := by linarith
  have hb0 : 0 < input.oddsB := by linarith
  have hme := marketEfficiency_eq input.oddsA input.oddsB ha0 hb0
  refine ⟨?_, ?_, ?_⟩
  · simp only [ArbitrageCalculator.Calculate, resultOf]
    rw [hme]
    exact decide_eq_true_iff
  · simp only [ProportionalCalculator.Calculate, resultOf]
    rw [hme]
    exact decide_eq_true_iff
  · intro r hr
    by_cases h : input.probA = 0 ∨ input.probB = 0
    · rw [kelly_error_of_missing_probs input h] at hr
      exact absurd hr (by simp)
    · unfold KellyCalculator.Calculate at hr
      rw [if_neg h] at hr
      have := (Except.ok.injEq _ _).mp hr
      rw [← this]
      simp only
      rw [hme]
      exact decide_eq_true_iff

/-- Witness for C2 at odds `2.5` and `3.0`. -/
theorem C2_guaranteed_profit_iff_market_inefficient_witness :
    ((1.01 : ℚ) ≤ 2.5) ∧ ((1.01 : ℚ) ≤ 3) ∧
    (((resultOf (ArbitrageCalculator.Calculate
          { oddsA := 2.5, oddsB := 3, totalStake := 1000 })).summary.guaranteedProfit =
        true ↔ 1 / (2.5 : ℚ) + 1 / 3 < 1) ∧
      ((resultOf (ProportionalCalculator.Calculate
          { oddsA := 2.5, oddsB := 3, totalStake := 1000 })).summary.guaranteedProfit =
        true ↔ 1 / (2.5 : ℚ) + 1 / 3 < 1) ∧
      (∀ r, KellyCalculator.Calculate
          { oddsA := 2.5, oddsB := 3, totalStake := 1000 } = Except.ok r →
        (r.summary.guaranteedProfit = true ↔ 1 / (2.5 : ℚ) + 1 / 3 < 1))) :=
  ⟨by norm_num, by norm_num,
    C2_guaranteed_profit_iff_market_inefficient
      { oddsA := 2.5, oddsB := 3, totalStake := 1000 } (by norm_num) (by norm_num)⟩

/-- C1, counterexample: at `oddsA = 2.5`, `oddsB = 3`, `totalStake = 1000`
the arbitrage stakes are `571.43` and `428.57`, whose returns differ by
`142.865` — far beyond `(oddsA+oddsB)/200`, the largest discrepancy the
2-decimal rounding of each stake could explain.  The equal-return half of
the claim fails on the code. -/
theorem C1_arbitrage_equal_return_counterexample :
    (resultOf (ArbitrageCalculator.Calculate
      { method := "arbitrage", oddsA := 5/2, oddsB := 3,
        totalStake := 1000 })).optionA.stake = 571.43 ∧
    (resultOf (ArbitrageCalculator.Calculate
      { method := "arbitrage", oddsA := 5/2, oddsB := 3,
        totalStake := 1000 })).optionB.stake = 428.57 ∧
    |(571.43 : ℚ) * (5/2) - 428.57 * 3| = 142.865 ∧
    ¬ |(571.43 : ℚ) * (5/2) - 428.57 * 3| ≤ (5/2 + 3) / 200 := by
  refine ⟨?_, ?_, ?_, ?_⟩
  · norm_num [ArbitrageCalculator.Calculate, resultOf, round, goRound,
      marketEfficiency, impliedProbability]
  · norm_num [ArbitrageCalculator.Calculate, resultOf, round, goRound,
      marketEfficiency, impliedProbability]
  · rw [abs_of_pos (by norm_num)]
    norm_num
  · rw [abs_of_pos (by norm_num)]
    norm_num

/-- C1, amended: for odds at least `1.01` and a positive stake, the
arbitrage stakes `round(T*(oddsB-1)/(oddsA+oddsB-2), 2)` and
`round(T*(oddsA-1)/(oddsA+oddsB-2), 2)` sum to `totalStake` within the
2-decimal rounding tolerance `0.01`; the equal-return identity
`stakeA*oddsA == stakeB*oddsB` holds only in the symmetric case
`oddsA = oddsB` (where it is exact). -/
theorem C1_arbitrage_stake_sum (input : CalculationInput)
    (ha : 1.01 ≤ input.oddsA) (hb : 1.01 ≤ input.oddsB)
    (hT : 0 < input.totalStake) :
    |(resultOf (ArbitrageCalculator.Calculate input)).optionA.stake +
        (resultOf (ArbitrageCalculator.Calculate input)).optionB.stake -
        input.totalStake| ≤ 1 / 100 ∧
    (input.oddsA = input.oddsB →
      (resultOf (ArbitrageCalculator.Calculate input)).optionA.stake * input.oddsA =
        (resultOf (ArbitrageCalculator.Calculate input)).optionB.stake * input.oddsB) := by
  have hA : (resultOf (ArbitrageCalculator.Calculate input)).optionA.stake =
      round (input.totalStake * (input.oddsB - 1) /
        (input.oddsA + input.oddsB - 2)) 2 := rfl
  have hB : (resultOf (ArbitrageCalculator.Calculate input)).optionB.stake =
      round (input.totalStake * (input.oddsA - 1) /
        (input.oddsA + input.oddsB - 2)) 2 := rfl
  have hD : input.oddsA + input.oddsB - 2 ≠ 0 := by linarith
  constructor
  · have hsum : input.totalStake * (input.oddsB - 1) / (input.oddsA + input.oddsB - 2) +
        input.totalStake * (input.oddsA - 1) / (input.oddsA + input.oddsB - 2) =
        input.totalStake := by
      field_simp
      ring
    have h1 := abs_round_sub_le
      (input.totalStake * (input.oddsB - 1) / (input.oddsA + input.oddsB - 2)) 2
    have h2 := abs_round_sub_le
      (input.totalStake * (input.oddsA - 1) / (input.oddsA + input.oddsB - 2)) 2
    rw [abs_le] at h1 h2 ⊢
    rw [hA, hB]
    norm_num at h1 h2 ⊢
    constructor <;> linarith
  · intro hab
    rw [hA, hB, hab]

/-- Witness for the amended C1 at odds `2.5`, `3.0`, stake `1000`. -/
theorem C1_arbitrage_stake_sum_witness :
    ((1.01 : ℚ) ≤ 2.5) ∧ ((1.01 : ℚ) ≤ 3) ∧ ((0 : ℚ) < 1000) ∧
    (|(resultOf (ArbitrageCalculator.Calculate
          { method := "arbitrage", oddsA := 2.5, oddsB := 3, totalStake := 1000 })).optionA.stake +
        (resultOf (ArbitrageCalculator.Calculate
          { method := "arbitrage", oddsA := 2.5, oddsB := 3, totalStake := 1000 })).optionB.stake -
        (({ method := "arbitrage", oddsA := 2.5, oddsB := 3, totalStake := 1000 } :
          CalculationInput)).totalStake| ≤ 1 / 100 ∧
      (({ method := "arbitrage", oddsA := 2.5, oddsB := 3, totalStake := 1000 } :
          CalculationInput).oddsA =
        ({ method := "arbitrage", oddsA := 2.5, oddsB := 3, totalStake := 1000 } :
          CalculationInput).oddsB →
        (resultOf (ArbitrageCalculator.Calculate
          { method := "arbitrage", oddsA := 2.5, oddsB := 3, totalStake := 1000 })).optionA.stake *
          ({ method := "arbitrage", oddsA := 2.5, oddsB := 3, totalStake := 1000 } :
            CalculationInput).oddsA =
        (resultOf (ArbitrageCalculator.Calculate
          { method := "arbitrage", oddsA := 2.5, oddsB := 3, totalStake := 1000 })).optionB.stake *
          ({ method := "arbitrage", oddsA := 2.5, oddsB := 3, totalStake := 1000 } :
            CalculationInput).oddsB)) :=
  ⟨by norm_num, by norm_num, by norm_num,
    C1_arbitrage_stake_sum
      { method := "arbitrage", oddsA := 2.5, oddsB := 3, totalStake := 1000 }
      (by norm_num) (by norm_num) (by norm_num)⟩

/-- C3, counterexample: a Kelly input that passes validation in full
(odds `500/500`, probabilities `0.5/0.5` summing to exactly `1`, stake
`0.0105`) on which both raw stakes land just above a half-cent, so
2-decimal rounding lifts each to `0.01`: the allocation `0.02` is almost
double the bankroll `0.0105`.  The "sum never exceeds totalStake" half of
the claim fails on the code (its own test suite allows a 1% overshoot). -/
theorem C3_kelly_bankroll_counterexample :
    ValidateCalculationInput
      { method := "kelly", oddsA := 500, oddsB := 500, probA := 1/2,
        probB := 1/2, totalStake := 21/2000 } = none ∧
    (KellyCalculator.Calculate
      { method := "kelly", oddsA := 500, oddsB := 500, probA := 1/2,
        probB := 1/2, totalStake := 21/2000 }).isOk = true ∧
    (resultOf (KellyCalculator.Calculate
      { method := "kelly", oddsA := 500, oddsB := 500, probA := 1/2,
        probB := 1/2, totalStake := 21/2000 })).optionA.stake = 1/100 ∧
    (resultOf (KellyCalculator.Calculate
      { method := "kelly", oddsA := 500, oddsB := 500, probA := 1/2,
        probB := 1/2, totalStake := 21/2000 })).optionB.stake = 1/100 ∧
    (21/2000 : ℚ) < 1/100 + 1/100 := by
  refine ⟨?_, ?_, ?_, ?_, by norm_num⟩
  · norm_num [ValidateCalculationInput, collectErrs, ValidateOdds,
      ValidateProbability, ValidateTotalStake]
  · norm_num [KellyCalculator.Calculate, Except.isOk, Except.toBool]
  · norm_num [KellyCalculator.Calculate, resultOf, round, goRound,
      marketEfficiency, impliedProbability, max_def]
  · norm_num [KellyCalculator.Calculate, resultOf, round, goRound,
      marketEfficiency, impliedProbability, max_def]

/-- C3, amended: for odds above `1`, a positive stake and nonzero
probabilities the Kelly stakes are nonnegative and their sum exceeds the
bankroll by at most the 2-decimal rounding tolerance `0.01` (the raw
stakes are scaled by `totalStake/(rawStakeA+rawStakeB)` whenever they sum
above `totalStake`, and each output stake is then rounded to 2 decimals). -/
theorem C3_kelly_stakes_bounded (input : CalculationInput)
    (ha : 1 < input.oddsA) (hb : 1 < input.oddsB)
    (hT : 0 < input.totalStake)
    (hpA : input.probA ≠ 0) (hpB : input.probB ≠ 0) :
    0 ≤ (resultOf (KellyCalculator.Calculate input)).optionA.stake ∧
    0 ≤ (resultOf (KellyCalculator.Calculate input)).optionB.stake ∧
    (resultOf (KellyCalculator.Calculate input)).optionA.stake +
        (resultOf (KellyCalculator.Calculate input)).optionB.stake ≤
      input.totalStake + 1 / 100 := by
  have hp : ¬(input.probA = 0 ∨ input.probB = 0) := by
    rintro (h | h)
    · exact hpA h
    · exact hpB h
  simp only [KellyCalculator.Calculate, if_neg hp, resultOf]
  set kA := max 0 ((input.probA * input.oddsA - 1) / (input.oddsA - 1)) with hkA
  set kB := max 0 ((input.probB * input.oddsB - 1) / (input.oddsB - 1)) with hkB
  have hkA0 : 0 ≤ kA := le_max_left _ _
  have hkB0 : 0 ≤ kB := le_max_left _ _
  have hrA : 0 ≤ input.totalStake * kA := mul_nonneg hT.le hkA0
  have hrB : 0 ≤ input.totalStake * kB := mul_nonneg hT.le hkB0
  by_cases hscale :
      input.totalStake < input.totalStake * kA + input.totalStake * kB
  · simp only [if_pos hscale]
    have hS : 0 < input.totalStake * kA + input.totalStake * kB := by linarith
    have hsA : 0 ≤ input.totalStake * kA *
        (input.totalStake / (input.totalStake * kA + input.totalStake * kB)) := by
      positivity
    have hsB : 0 ≤ input.totalStake * kB *
        (input.totalStake / (input.totalStake * kA + input.totalStake * kB)) := by
      positivity
    have hsum : input.totalStake * kA *
          (input.totalStake / (input.totalStake * kA + input.totalStake * kB)) +
        input.totalStake * kB *
          (input.totalStake / (input.totalStake * kA + input.totalStake * kB)) =
        input.totalStake := by
      field_simp
      ring
    have h1 := round_le (input.totalStake * kA *
      (input.totalStake / (input.totalStake * kA + input.totalStake * kB))) 2
    have h2 := round_le (input.totalStake * kB *
      (input.totalStake / (input.totalStake * kA + input.totalStake * kB))) 2
    norm_num at h1 h2
    exact ⟨round_nonneg _ 2 hsA, round_nonneg _ 2 hsB, by linarith⟩
  · simp only [if_neg hscale]
    push_neg at hscale
    have h1 := round_le (input.totalStake * kA) 2
    have h2 := round_le (input.totalStake * kB) 2
    norm_num at h1 h2
    exact ⟨round_nonneg _ 2 hrA, round_nonneg _ 2 hrB, by linarith⟩

/-- Witness for the amended C3 at the overconfident Kelly input from the
repository's own tests (`odds 2/2`, `probs 0.7/0.6`, stake `1000`). -/
theorem C3_kelly_stakes_bounded_witness :
    ((1 : ℚ) < 2) ∧ ((1 : ℚ) < 2) ∧ ((0 : ℚ) < 1000) ∧
    ((7/10 : ℚ) ≠ 0) ∧ ((6/10 : ℚ) ≠ 0) ∧
    (0 ≤ (resultOf (KellyCalculator.Calculate
        { method := "kelly", oddsA := 2, oddsB := 2, probA := 7/10,
          probB := 6/10, totalStake := 1000 })).optionA.stake ∧
      0 ≤ (resultOf (KellyCalculator.Calculate
        { method := "kelly", oddsA := 2, oddsB := 2, probA := 7/10,
          probB := 6/10, totalStake := 1000 })).optionB.stake ∧
      (resultOf (KellyCalculator.Calculate
          { method := "kelly", oddsA := 2, oddsB := 2, probA := 7/10,
            probB := 6/10, totalStake := 1000 })).optionA.stake +
          (resultOf (KellyCalculator.Calculate
            { method := "kelly", oddsA := 2, oddsB := 2, probA := 7/10,
              probB := 6/10, totalStake := 1000 })).optionB.stake ≤
        ({ method := "kelly", oddsA := 2, oddsB := 2, probA := 7/10,
            probB := 6/10, totalStake := 1000 } : CalculationInput).totalStake + 1 / 100) :=
  ⟨by norm_num, by norm_num, by norm_num, by norm_num, by norm_num,
    C3_kelly_stakes_bounded
      { method := "kelly", oddsA := 2, oddsB := 2, probA := 7/10,
        probB := 6/10, totalStake := 1000 }
      (by norm_num) (by norm_num) (by norm_num) (by norm_num) (by norm_num)⟩

/-- C5, counterexample: after 2-decimal rounding the "strictly lower stake
for higher odds" and "both stakes positive" halves of the claim fail.  At
odds `2.000001 > 2` both stakes round to `500.00` (not strictly lower),
and at odds `100000` versus `1.01` with stake `1` the high-odds stake
rounds all the way down to `0` (not positive). -/
theorem C5_proportional_counterexample :
    ((2 : ℚ) < 2000001/1000000) ∧
    (resultOf (ProportionalCalculator.Calculate
      { method := "proportional", oddsA := 2000001/1000000, oddsB := 2,
        totalStake := 1000 })).optionA.stake = 500 ∧
    (resultOf (ProportionalCalculator.Calculate
      { method := "proportional", oddsA := 2000001/1000000, oddsB := 2,
        totalStake := 1000 })).optionB.stake = 500 ∧
    ((101/100 : ℚ) < 100000) ∧ ((0 : ℚ) < 1) ∧
    (resultOf (ProportionalCalculator.Calculate
      { method := "proportional", oddsA := 100000, oddsB := 101/100,
        totalStake := 1 })).optionA.stake = 0 := by
  refine ⟨by norm_num, ?_, ?_, by norm_num, by norm_num, ?_⟩ <;>
    norm_num [ProportionalCalculator.Calculate, resultOf, round, goRound,
      marketEfficiency, impliedProbability]

/-- C5, amended: for positive odds and positive stake the proportional
calculator rounds the allocations
`totalStake*(1/odds_i)/((1/oddsA)+(1/oddsB))` to 2 decimals; both output
stakes are nonnegative (rounding can send a tiny allocation to `0`), the
sum matches `totalStake` within the rounding tolerance `0.01`, and when
`oddsA > oddsB` the unrounded stake of A is strictly below that of B, so
after rounding `stakeA ≤ stakeB`. -/
theorem C5_proportional_allocation (input : CalculationInput)
    (ha : 0 < input.oddsA) (hb : 0 < input.oddsB)
    (hT : 0 < input.totalStake) :
    0 ≤ (resultOf (ProportionalCalculator.Calculate input)).optionA.stake ∧
    0 ≤ (resultOf (ProportionalCalculator.Calculate input)).optionB.stake ∧
    |(resultOf (ProportionalCalculator.Calculate input)).optionA.stake +
        (resultOf (ProportionalCalculator.Calculate input)).optionB.stake -
        input.totalStake| ≤ 1 / 100 ∧
    (input.oddsB < input.oddsA →
      input.totalStake * ((1 / input.oddsA) / (1 / input.oddsA + 1 / input.oddsB)) <
          input.totalStake * ((1 / input.oddsB) / (1 / input.oddsA + 1 / input.oddsB)) ∧
        (resultOf (ProportionalCalculator.Calculate input)).optionA.stake ≤
          (resultOf (ProportionalCalculator.Calculate input)).optionB.stake) := by
  have hA : (resultOf (ProportionalCalculator.Calculate input)).optionA.stake =
      round (input.totalStake *
        ((1 / input.oddsA) / (1 / input.oddsA + 1 / input.oddsB))) 2 := rfl
  have hB : (resultOf (ProportionalCalculator.Calculate input)).optionB.stake =
      round (input.totalStake *
        ((1 / input.oddsB) / (1 / input.oddsA + 1 / input.oddsB))) 2 := rfl
  have hwA : 0 < 1 / input.oddsA := by positivity
  have hwB : 0 < 1 / input.oddsB := by positivity
  have hW : 0 < 1 / input.oddsA + 1 / input.oddsB := by positivity
  have hrawA : 0 ≤ input.totalStake *
      ((1 / input.oddsA) / (1 / input.oddsA + 1 / input.oddsB)) := by positivity
  have hrawB : 0 ≤ input.totalStake *
      ((1 / input.oddsB) / (1 / input.oddsA + 1 / input.oddsB)) := by positivity
  refine ⟨hA ▸ round_nonneg _ 2 hrawA, hB ▸ round_nonneg _ 2 hrawB, ?_, ?_⟩
  · have hsum : input.totalStake *
          ((1 / input.oddsA) / (1 / input.oddsA + 1 / input.oddsB)) +
        input.totalStake *
          ((1 / input.oddsB) / (1 / input.oddsA + 1 / input.oddsB)) =
        input.totalStake := by
      field_simp
      ring
    have h1 := abs_round_sub_le (input.totalStake *
      ((1 / input.oddsA) / (1 / input.oddsA + 1 / input.oddsB))) 2
    have h2 := abs_round_sub_le (input.totalStake *
      ((1 / input.oddsB) / (1 / input.oddsA + 1 / input.oddsB))) 2
    rw [abs_le] at h1 h2 ⊢
    rw [hA, hB]
    norm_num at h1 h2 hsum ⊢
    constructor <;> linarith
  · intro hba
    have hlt : 1 / input.oddsA < 1 / input.oddsB :=
      one_div_lt_one_div_of_lt hb hba
    have hraw : input.totalStake *
        ((1 / input.oddsA) / (1 / input.oddsA + 1 / input.oddsB)) <
        input.totalStake *
        ((1 / input.oddsB) / (1 / input.oddsA + 1 / input.oddsB)) := by
      exact mul_lt_mul_of_pos_left ((div_lt_div_right hW).mpr hlt) hT
    exact ⟨hraw, by rw [hA, hB]; exact round_mono 2 hraw.le⟩

/-- Witness for the amended C5 at odds `5` versus `2`, stake `1000`. -/
theorem C5_proportional_allocation_witness :
    ((0 : ℚ) < 5) ∧ ((0 : ℚ) < 2) ∧ ((0 : ℚ) < 1000) ∧
    (0 ≤ (resultOf (ProportionalCalculator.Calculate
        { method := "proportional", oddsA := 5, oddsB := 2,
          totalStake := 1000 })).optionA.stake ∧
      0 ≤ (resultOf (ProportionalCalculator.Calculate
        { method := "proportional", oddsA := 5, oddsB := 2,
          totalStake := 1000 })).optionB.stake ∧
      |(resultOf (ProportionalCalculator.Calculate
          { method := "proportional", oddsA := 5, oddsB := 2,
            totalStake := 1000 })).optionA.stake +
          (resultOf (ProportionalCalculator.Calculate
            { method := "proportional", oddsA := 5, oddsB := 2,
              totalStake := 1000 })).optionB.stake -
          (1000 : ℚ)| ≤ 1 / 100 ∧
      ((2 : ℚ) < 5 →
        (1000 : ℚ) * ((1 / 5) / (1 / 5 + 1 / 2)) <
            (1000 : ℚ) * ((1 / 2) / (1 / 5 + 1 / 2)) ∧
          (resultOf (ProportionalCalculator.Calculate
              { method := "proportional", oddsA := 5, oddsB := 2,
                totalStake := 1000 })).optionA.stake ≤
            (resultOf (ProportionalCalculator.Calculate
              { method := "proportional", oddsA := 5, oddsB := 2,
                totalStake := 1000 })).optionB.stake)) :=
  ⟨by norm_num, by norm_num, by norm_num,
    C5_proportional_allocation
      { method := "proportional", oddsA := 5, oddsB := 2, totalStake := 1000 }
      (by norm_num) (by norm_num) (by norm_num)⟩

/-- C9, counterexample: at `oddsA = 5`, `oddsB = 10`, `totalStake = 5000`
(the "high odds" case of the repository's own test suite) the code's
`ReturnIfWins` is `17307.70` and its `ProfitIfWins` is `12307.70` — the
rounding of the already rounded stake (`3461.54`) times the odds — while
rounding only at output construction (no rounded intermediate) would give
`round(5000*(10-1)/13 * 5, 2) = 17307.69` and `12307.69`.  Every rounding
step here sits far from a half-point (`346153.846`, `1730770.0`,
`1730769.23`), so the same cent of drift occurs in the float64 program,
whose test expects exactly `12307.7`.  The no-compounding half of the
claim fails on the code. -/
theorem C9_rounded_intermediates_counterexample :
    (resultOf (ArbitrageCalculator.Calculate
      { method := "arbitrage", oddsA := 5, oddsB := 10,
        totalStake := 5000 })).optionA.returnIfWins = 17307.7 ∧
    (resultOf (ArbitrageCalculator.Calculate
      { method := "arbitrage", oddsA := 5, oddsB := 10,
        totalStake := 5000 })).optionA.profitIfWins = 12307.7 ∧
    round ((5000 : ℚ) * (10 - 1) / (5 + 10 - 2) * 5) 2 = 17307.69 ∧
    round ((5000 : ℚ) * (10 - 1) / (5 + 10 - 2) * 5 - 5000) 2 = 12307.69 ∧
    ((17307.7 : ℚ) ≠ 17307.69) ∧ ((12307.7 : ℚ) ≠ 12307.69) := by
  refine ⟨?_, ?_, ?_, ?_, by norm_num, by norm_num⟩ <;>
    norm_num [ArbitrageCalculator.Calculate, resultOf, round, goRound,
      marketEfficiency, impliedProbability]

/-- C9, amended: `round` is round-half-away-from-zero (floor of `x + 1/2`
scaled, for nonnegative `x`, and odd-symmetric), every monetary output
field of the three calculators is 2-decimal rounded and every ROI-class
field 4-decimal rounded — but the returns and profits are computed from
the already rounded stakes, so those fields do incorporate a rounded
intermediate. -/
theorem C9_output_rounding :
    (∀ x : ℚ, ∀ d : ℕ, 0 ≤ x →
      round x d = (⌊x * 10 ^ d + 1/2⌋ : ℚ) / 10 ^ d) ∧
    (∀ x : ℚ, ∀ d : ℕ, round (-x) d = -(round x d)) ∧
    (∀ input : CalculationInput,
      allRounded (resultOf (ArbitrageCalculator.Calculate input)) ∧
      derivedFromRoundedStake (resultOf (ArbitrageCalculator.Calculate input)) input) ∧
    (∀ input : CalculationInput,
      allRounded (resultOf (ProportionalCalculator.Calculate input)) ∧
      derivedFromRoundedStake (resultOf (ProportionalCalculator.Calculate input)) input) ∧
    (∀ input : CalculationInput, (KellyCalculator.Calculate input).isOk = true →
      allRounded (resultOf (KellyCalculator.Calculate input)) ∧
      derivedFromRoundedStake (resultOf (KellyCalculator.Calculate input)) input) := by
  refine ⟨fun x d hx => round_eq_of_nonneg x d hx, fun x d => round_neg x d,
    ?_, ?_, ?_⟩
  · intro input
    simp [ArbitrageCalculator.Calculate, resultOf, allRounded,
      derivedFromRoundedStake, round_idem]
  · intro input
    simp [ProportionalCalculator.Calculate, resultOf, allRounded,
      derivedFromRoundedStake, round_idem]
  · intro input h
    by_cases hp : input.probA = 0 ∨ input.probB = 0
    · rw [kelly_error_of_missing_probs input hp] at h
      simp [Except.isOk, Except.toBool] at h
    · simp only [KellyCalculator.Calculate, if_neg hp, resultOf, allRounded,
        derivedFromRoundedStake]
      split_ifs <;> simp [round_idem]

/-- Witness for the amended C9: the half-away-from-zero form of `round`
evaluated at `x = 5/2`, `d = 2`. -/
theorem C9_output_rounding_witness :
    ((0 : ℚ) ≤ 5/2) ∧
    round (5/2) 2 = (⌊(5/2 : ℚ) * 10 ^ 2 + 1/2⌋ : ℚ) / 10 ^ 2 :=
  ⟨by norm_num, C9_output_rounding.1 (5/2) 2 (by norm_num)⟩

/-- C4: `ParseOdds` dispatches on syntactic shape in precedence order
(trailing `%`, then a `/` anywhere, then a leading sign, else decimal) and
converts each format to decimal odds — a percentage `p ∈ (0,100]` yields
`100/p`, a fraction `n/d` with `d ≠ 0` and `n, d ≥ 0` yields `n/d + 1`,
an American value `a ≠ 0` yields `a/100 + 1` (positive) or `100/|a| + 1`
(negative), `a = 0` is an error, and a bare decimal is returned as-is,
failing below `1.0`.  The documented round-trips hold: `"39%" ↦ 100/39`
(within `1e-4` of `2.5641`), `"3/2" ↦ 2.5`, `"+250" ↦ 3.5`, and
`"-150" ↦ 5/3` (within `1e-4` of `1.6667`). -/
theorem C4_parse_odds_formats :
    (∀ l : List Char, (trimSpace l).isEmpty = false →
      endsWithPercent (trimSpace l) = true →
      ParseOdds l = parsePercentage (trimSpace l)) ∧
    (∀ l : List Char, (trimSpace l).isEmpty = false →
      endsWithPercent (trimSpace l) = false →
      (trimSpace l).contains '/' = true →
      ParseOdds l = parseFractional (trimSpace l)) ∧
    (∀ l : List Char, (trimSpace l).isEmpty = false →
      endsWithPercent (trimSpace l) = false →
      (trimSpace l).contains '/' = false →
      startsWithSign (trimSpace l) = true →
      ParseOdds l = parseAmerican (trimSpace l)) ∧
    (∀ l : List Char, (trimSpace l).isEmpty = false →
      endsWithPercent (trimSpace l) = false →
      (trimSpace l).contains '/' = false →
      startsWithSign (trimSpace l) = false →
      ParseOdds l = parseDecimal (trimSpace l)) ∧
    (∀ (l : List Char) (p : ℚ),
      parseFloatQ (trimSpace (trimSuffixPercent l)) = some p →
      0 < p → p ≤ 100 → parsePercentage l = Except.ok (100 / p)) ∧
    (∀ (l p1 p2 : List Char) (n d : ℚ), splitOnSlash l = [p1, p2] →
      parseFloatQ (trimSpace p1) = some n →
      parseFloatQ (trimSpace p2) = some d →
      d ≠ 0 → 0 ≤ n → 0 ≤ d →
      parseFractional l = Except.ok (n / d + 1)) ∧
    (∀ (l : List Char) (a : ℚ), parseFloatQ l = some a → a ≠ 0 →
      parseAmerican l =
        Except.ok (if 0 < a then a / 100 + 1 else 100 / |a| + 1)) ∧
    (∀ l : List Char, parseFloatQ l = some 0 →
      parseAmerican l = Except.error "American odds cannot be zero") ∧
    (∀ (l : List Char) (a : ℚ), parseFloatQ l = some a → 1 ≤ a →
      parseDecimal l = Except.ok a) ∧
    (∀ (l : List Char) (a : ℚ), parseFloatQ l = some a → a < 1 →
      parseDecimal l = Except.error "decimal odds must be >= 1.0") ∧
    ParseOdds ['3','9','%'] = Except.ok (100/39) ∧
    |(100/39 : ℚ) - 2.5641| ≤ 1/10000 ∧
    ParseOdds ['3','/','2'] = Except.ok 2.5 ∧
    ParseOdds ['+','2','5','0'] = Except.ok 3.5 ∧
    ParseOdds ['-','1','5','0'] = Except.ok (5/3) ∧
    |(5/3 : ℚ) - 1.6667| ≤ 1/10000 := by
  refine ⟨?_, ?_, ?_, ?_, ?_, ?_, ?_, ?_, ?_, ?_, ?_, by norm_num [abs_le],
    ?_, ?_, ?_, by norm_num [abs_le]⟩
  · intro l h1 h2
    simp [ParseOdds, h1, h2]
  · intro l h1 h2 h3
    have h3m : '/' ∈ trimSpace l := by simpa using h3
    simp [ParseOdds, h1, h2, h3m]
  · intro l h1 h2 h3 h4
    have h3m : '/' ∉ trimSpace l := by simpa using h3
    simp [ParseOdds, h1, h2, h3m, h4]
  · intro l h1 h2 h3 h4
    have h3m : '/' ∉ trimSpace l := by simpa using h3
    simp [ParseOdds, h1, h2, h3m, h4]
  · intro l p hp h0 h100
    unfold parsePercentage
    simp only [hp]
    rw [if_neg (not_le.mpr h0), if_neg (not_lt.mpr h100)]
  · intro l p1 p2 n d hsplit hn hd hd0 hn0 hdn0
    unfold parseFractional
    simp only [hsplit, hn, hd]
    rw [if_neg hd0, if_neg (by push_neg; exact ⟨hn0, hdn0⟩)]
  · intro l a ha haz
    unfold parseAmerican
    simp only [ha]
    rw [if_neg haz]
    split_ifs <;> rfl
  · intro l h
    unfold parseAmerican
    simp only [h]
    simp
  · intro l a ha h1
    unfold parseDecimal
    simp only [ha]
    rw [if_neg (not_lt.mpr h1)]
  · intro l a ha h1
    unfold parseDecimal
    simp only [ha]
    rw [if_pos h1]
  · simp [ParseOdds, trimSpace, isSpaceChar, endsWithPercent, startsWithSign,
      trimSuffixPercent, parsePercentage, parseFractional, parseAmerican,
      parseDecimal, parseFloatQ, parseExpPart, takeDigits, digitsVal,
      splitOnSlash, List.dropWhile]
    norm_num
  · simp [ParseOdds, trimSpace, isSpaceChar, endsWithPercent, startsWithSign,
      trimSuffixPercent, parsePercentage, parseFractional, parseAmerican,
      parseDecimal, parseFloatQ, parseExpPart, takeDigits, digitsVal,
      splitOnSlash, List.dropWhile]
    norm_num
  · simp [ParseOdds, trimSpace, isSpaceChar, endsWithPercent, startsWithSign,
      trimSuffixPercent, parsePercentage, parseFractional, parseAmerican,
      parseDecimal, parseFloatQ, parseExpPart, takeDigits, digitsVal,
      splitOnSlash, List.dropWhile]
    norm_num
  · simp [ParseOdds, trimSpace, isSpaceChar, endsWithPercent, startsWithSign,
      trimSuffixPercent, parsePercentage, parseFractional, parseAmerican,
      parseDecimal, parseFloatQ, parseExpPart, takeDigits, digitsVal,
      splitOnSlash, List.dropWhile]
    norm_num

/-- Witness for C4: the percentage conversion applied at `"50%"`. -/
theorem C4_parse_odds_formats_witness :
    parseFloatQ (trimSpace (trimSuffixPercent ['5','0','%'])) = some 50 ∧
    (0 : ℚ) < 50 ∧ (50 : ℚ) ≤ 100 ∧
    parsePercentage ['5','0','%'] = Except.ok (100 / 50) :=
  ⟨(by
      simp [trimSuffixPercent, endsWithPercent, trimSpace, isSpaceChar,
        parseFloatQ, parseExpPart, takeDigits, digitsVal, List.dropWhile]),
   by norm_num, by norm_num,
   C4_parse_odds_formats.2.2.2.2.1 ['5','0','%'] 50
    (by
      simp [trimSuffixPercent, endsWithPercent, trimSpace, isSpaceChar,
        parseFloatQ, parseExpPart, takeDigits, digitsVal, List.dropWhile])
    (by norm_num) (by norm_num)⟩

theorem validateOdds_seg (q : ℚ) (tag : String) :
    (match ValidateOdds q with
      | some m => [tag ++ m]
      | none => ([] : List String)) =
    if q < 1.01 then [tag ++ "odds must be >= 1.01"] else [] := by
  unfold ValidateOdds
  split_ifs <;> rfl

theorem validateStake_seg (q : ℚ) :
    (match ValidateTotalStake q with
      | some m => [m]
      | none => ([] : List String)) =
    if q ≤ 0 then ["total stake must be positive"] else [] := by
  unfold ValidateTotalStake
  split_ifs <;> rfl

theorem validateProb_seg (p : ℚ) (tag : String) :
    (if p ≠ 0 then
      match ValidateProbability p with
      | some m => [tag ++ m]
      | none => ([] : List String)
    else []) =
    if p ≠ 0 ∧ (p ≤ 0 ∨ 1 ≤ p) then
      [tag ++ "probability must be between 0 and 1 (exclusive)"]
    else [] := by
  unfold ValidateProbability
  split_ifs <;> simp_all

theorem collectErrs_eq (input : CalculationInput) :
    collectErrs input = applicableFailedChecks input := by
  unfold collectErrs applicableFailedChecks
  rw [validateOdds_seg, validateOdds_seg, validateStake_seg,
    validateProb_seg, validateProb_seg]
  by_cases hk : input.method = "kelly"
  · simp [hk, List.append_assoc]
  · by_cases harb : input.method = "arbitrage"
    · simp [harb, hk, List.append_assoc]
      split_ifs <;> simp_all
    · by_cases hprop : input.method = "proportional"
      · simp [hprop, hk, harb, List.append_assoc]
      · simp [hk, harb, hprop, List.append_assoc]

/-- C6: the validator runs every applicable check whether or not earlier
ones failed — its result is `nil` exactly when no check fails, and
otherwise a single composite `ValidationError` carrying precisely the
messages of all failing checks in source order; the composite's message
is the sole failure's message when one check fails, and the numbered
listing of all of them when several do. -/
theorem C6_validator_accumulates_all (input : CalculationInput) :
    (ValidateCalculationInput input =
      if applicableFailedChecks input = [] then none
      else some ⟨applicableFailedChecks input⟩) ∧
    (∀ m : String, ValidationError.Error ⟨[m]⟩ = m) ∧
    (∀ ms : List String, 2 ≤ ms.length →
      ValidationError.Error ⟨ms⟩ = numberedListing ms) := by
  refine ⟨?_, fun m => rfl, ?_⟩
  · unfold ValidateCalculationInput
    rw [collectErrs_eq]
  · intro ms h
    cases ms with
    | nil => exact absurd h (by simp)
    | cons a t =>
      cases t with
      | nil => exact absurd h (by simp)
      | cons b t2 => rfl

/-- Witness for C6: the composite message of a two-failure error is the
numbered listing. -/
theorem C6_validator_accumulates_all_witness :
    2 ≤ (["Option A: odds must be >= 1.01",
          "total stake must be positive"] : List String).length ∧
    ValidationError.Error
        ⟨["Option A: odds must be >= 1.01", "total stake must be positive"]⟩ =
      numberedListing
        ["Option A: odds must be >= 1.01", "total stake must be positive"] :=
  ⟨by norm_num,
    (C6_validator_accumulates_all {}).2.2
      ["Option A: odds must be >= 1.01", "total stake must be positive"]
      (by norm_num)⟩

end Kelly
